import Mathlib

/-!
Shallow embedding of the opentp-sdk event dispatch pipeline
(src/types.ts, src/consent.ts, src/dispatcher.ts, src/queue.ts,
src/tracker.ts), together with proofs settling the spec claims.

Payload and metadata values (`Record<string, unknown>` in the source) are
modelled as association lists of string pairs; only their identity matters
to the pipeline, never their contents.
-/

namespace OpenTP

/-- `DispatchedEvent` from src/types.ts: the resolved event handed to
adapters. -/
structure DispatchedEvent where
  key : String
  area : String
  eventName : String
  payload : List (String × String)
  timestamp : Nat
  metadata : List (String × String)
deriving DecidableEq, Repr

/- ──────────────── ConsentManager (src/consent.ts) ──────────────── -/

/-- `ConsentConfig` from src/types.ts.  `defaultState` and `mapping` are
string-keyed records, modelled as partial functions; `none` is a missing
field. -/
structure ConsentConfig where
  defaultState : Option (String → Option Bool)
  mapping : Option (String → Option String)
  defaultCategory : Option String

/-- The `ConsentManager` class state: `state` is the string-keyed record of
category grants, `mapping` the pattern-to-category record, and
`defaultCategory` the fallback category. -/
structure ConsentManager where
  state : String → Option Bool
  mapping : String → Option String
  defaultCategory : String

/-- The `ConsentManager` constructor: the base record maps `necessary` to
`true` and `analytics`/`marketing`/`functional` to `false`; entries of
`config.defaultState` override it (object spread).  `mapping` defaults to
the empty record and `defaultCategory` to `"analytics"`. -/
def ConsentManager.ofConfig (cfg : ConsentConfig) : ConsentManager :=
  { state := fun c =>
      match (cfg.defaultState.getD (fun _ => none)) c with
      | some b => some b
      | none =>
        if c = "necessary" then some true
        else if c = "analytics" ∨ c = "marketing" ∨ c = "functional" then some false
        else none
    mapping := cfg.mapping.getD (fun _ => none)
    defaultCategory := cfg.defaultCategory.getD "analytics" }

/-- `ConsentManager.getCategory`: exact key, then area, then
`area ++ "::*"` wildcard, then the default category.  A present mapping
value is one of the four non-empty category literals, hence truthy, so the
source's truthiness tests are presence tests. -/
def ConsentManager.getCategory (cm : ConsentManager) (e : DispatchedEvent) : String :=
  match cm.mapping e.key with
  | some c => c
  | none =>
    match cm.mapping e.area with
    | some c => c
    | none =>
      match cm.mapping (e.area ++ "::*") with
      | some c => c
      | none => cm.defaultCategory

/-- `ConsentManager.isAllowed`: `this.state[category] === true`; an absent
category is `undefined`, which is not `=== true`. -/
def ConsentManager.isAllowed (cm : ConsentManager) (e : DispatchedEvent) : Bool :=
  match cm.state (cm.getCategory e) with
  | some true => true
  | _ => false

/- ──────────────── Middleware chain (src/dispatcher.ts) ──────────────── -/

/-- A middleware is `(event, next) => void`.  A synchronous middleware is
fully described by the sequence of arguments it passes to `next` during its
own invocation, in call order: `[]` means it never calls its continuation. -/
abbrev Middleware := DispatchedEvent → List DispatchedEvent

/-- The mutable state captured by the `next` closure in
`Dispatcher.runMiddleware`: the `resolved` flag, the running `index`, and
the event the promise was resolved with (if any). -/
structure MwState where
  resolved : Bool
  index : Nat
  result : Option DispatchedEvent
deriving DecidableEq, Repr

/-- One invocation of the `next` closure with argument `e`, followed by the
synchronous execution it triggers.  `if (resolved) return;` then
`index++`; if middleware remain, the middleware at the new index runs and
each of its own `next` calls is processed in order (the `foldl`); otherwise
the chain resolves with `e`.

The `fuel` argument only bounds the nesting depth of `next` re-entries.
Each nested level enters the chain at a strictly larger index, and the
chain resolves once the index reaches `chain.length`, so the depth never
exceeds `chain.length`; `runMiddleware` supplies `chain.length + 1`, which
is never exhausted. -/
def runNext (chain : List Middleware) : Nat → MwState → DispatchedEvent → MwState
  | 0, s, _ => s
  | fuel + 1, s, e =>
    if s.resolved then s
    else if h : s.index + 1 < chain.length then
      (chain.get ⟨s.index + 1, h⟩ e).foldl (runNext chain fuel)
        { s with index := s.index + 1 }
    else
      { resolved := true, index := s.index + 1, result := some e }

/-- Outcome of `Dispatcher.runMiddleware`'s promise: resolved with an event,
resolved with `null` (filtered), or never resolved at all. -/
inductive MwOutcome where
  | delivered (e : DispatchedEvent)
  | dropped
  | hung
deriving DecidableEq, Repr

/-- `Dispatcher.runMiddleware`.  An empty chain resolves with the event.
Otherwise the first middleware runs with the fresh state, each of its
`next` calls is processed in order, and then the zero-delay timeout fires:
it resolves the promise with `null` only when the chain is unresolved AND
`index === 0`; an unresolved chain with `index > 0` is never resolved
(`hung`).  A resolved state always carries `some e` (the `none` branch is
dead code, mapped to the `resolve(null)` outcome). -/
def runMiddleware (chain : List Middleware) (event : DispatchedEvent) : MwOutcome :=
  match chain with
  | [] => .delivered event
  | m :: rest =>
    let s := (m event).foldl
      (runNext (m :: rest) ((m :: rest).length + 1)) ⟨false, 0, none⟩
    if s.resolved then
      match s.result with
      | some e => .delivered e
      | none => .dropped
    else if s.index = 0 then .dropped
    else .hung

/- ──────────────── Fan-out dispatcher (src/dispatcher.ts) ──────────────── -/

/-- An adapter (src/types.ts).  `send`/`sendBatch` are modelled as pure
fallible computations that settle immediately: `Except.error m` stands for
a synchronous throw or an immediate rejection with message `m`. -/
structure Adapter where
  name : String
  send : DispatchedEvent → Except String Unit
  sendBatch : Option (List DispatchedEvent → Except String Unit)

/-- The error value `dispatch`/`dispatchBatch` re-signal a destination
failure with: in the source it is
`new Error('Adapter "<name>" [batch ]error: <cause>')`; modelled as the
pair of the adapter name and the full message string. -/
structure DestErr where
  adapterName : String
  message : String
deriving DecidableEq, Repr

/-- The wrapped error for a `send` failure on the single-event path. -/
def wrapErr (name msg : String) : DestErr :=
  ⟨name, "Adapter \"" ++ name ++ "\" error: " ++ msg⟩

/-- The wrapped error for a failure on the batch path. -/
def wrapBatchErr (name msg : String) : DestErr :=
  ⟨name, "Adapter \"" ++ name ++ "\" batch error: " ++ msg⟩

/-- Settlement of the promise returned by `dispatch`/`dispatchBatch`:
fulfilled, rejected with a wrapped destination error, or pending forever
(the middleware chain hung, so the `await` never completes). -/
inductive DispatchResult where
  | ok
  | failed (err : DestErr)
  | pending
deriving DecidableEq, Repr

/-- The errors among a list of per-adapter results, in adapter order. -/
def errorsOf (rs : List (Except DestErr Unit)) : List DestErr :=
  rs.filterMap (fun r => match r with | .error d => some d | .ok _ => none)

/-- `Promise.all` over per-adapter tasks whose `send`/`sendBatch` settle
immediately: every task has already run; the aggregate fulfills when all
succeeded and otherwise rejects with the first rejection in adapter order
(for immediately-settled tasks, settlement order is array order).  The
remaining errors are discarded by `Promise.all`. -/
def allResult (rs : List (Except DestErr Unit)) : DispatchResult :=
  match (errorsOf rs).head? with
  | some d => .failed d
  | none => .ok

/-- `send` wrapped in the per-adapter `try`/`catch` of `dispatch`. -/
def sendWrapped (a : Adapter) (e : DispatchedEvent) : Except DestErr Unit :=
  match a.send e with
  | .ok _ => .ok ()
  | .error m => .error (wrapErr a.name m)

/-- Trace of one `dispatch`/`dispatchBatch` call: for each adapter (in
registration order) the events actually handed to its `send`/`sendBatch`
and that adapter's wrapped outcome, plus the settlement of the returned
promise.  `adapters.map` invokes every async arrow eagerly, so every
adapter appears, whatever the other adapters did. -/
structure DispatchTrace where
  sentTo : List (String × List DispatchedEvent × Except DestErr Unit)
  result : DispatchResult

/-- `Dispatcher.dispatch`: run the middleware chain; on `null` return with
no adapter contacted; otherwise start every adapter's send concurrently
and await them all.  A hung chain leaves the promise pending with no
adapter contacted. -/
def Dispatcher.dispatch (adapters : List Adapter) (chain : List Middleware)
    (event : DispatchedEvent) : DispatchTrace :=
  match runMiddleware chain event with
  | .hung => { sentTo := [], result := .pending }
  | .dropped => { sentTo := [], result := .ok }
  | .delivered f =>
    let calls := adapters.map (fun a => (a.name, [f], sendWrapped a f))
    { sentTo := calls, result := allResult (calls.map (fun c => c.2.2)) }

/-- Sequential fallback of `dispatchBatch` for an adapter without
`sendBatch`: `for (const event of processed) await adapter.send(event)` —
stops at the first failure. -/
def sendSeq (a : Adapter) : List DispatchedEvent → Except String Unit
  | [] => .ok ()
  | e :: rest =>
    match a.send e with
    | .ok _ => sendSeq a rest
    | .error m => .error m

/-- The events the sequential fallback actually attempts: every event up to
and including the first failing one. -/
def attemptedSeq (a : Adapter) : List DispatchedEvent → List DispatchedEvent
  | [] => []
  | e :: rest =>
    match a.send e with
    | .ok _ => e :: attemptedSeq a rest
    | .error _ => [e]

/-- One adapter's leg of `dispatchBatch`: `sendBatch` when present,
otherwise the sequential fallback; failures wrapped by the batch
`try`/`catch`. -/
def batchLeg (a : Adapter) (processed : List DispatchedEvent) :
    List DispatchedEvent × Except DestErr Unit :=
  match a.sendBatch with
  | some sb =>
    (processed,
      match sb processed with
      | .ok _ => .ok ()
      | .error m => .error (wrapBatchErr a.name m))
  | none =>
    (attemptedSeq a processed,
      match sendSeq a processed with
      | .ok _ => .ok ()
      | .error m => .error (wrapBatchErr a.name m))

/-- `Dispatcher.dispatchBatch`: each event runs through the middleware
chain in turn (`await` in a `for` loop); if any of them hangs, the loop
never finishes and the promise stays pending with no adapter contacted.
Otherwise the surviving events, in original order, go to every adapter —
`sendBatch` when available, sequential `send` otherwise — and the results
are combined like `dispatch`'s. -/
def Dispatcher.dispatchBatch (adapters : List Adapter) (chain : List Middleware)
    (events : List DispatchedEvent) : DispatchTrace :=
  if events.any (fun e => runMiddleware chain e = .hung) then
    { sentTo := [], result := .pending }
  else
    let processed := events.filterMap (fun e =>
      match runMiddleware chain e with
      | .delivered f => some f
      | _ => none)
    if processed.isEmpty then { sentTo := [], result := .ok }
    else
      let calls := adapters.map (fun a =>
        let leg := batchLeg a processed
        (a.name, leg.1, leg.2))
      { sentTo := calls, result := allResult (calls.map (fun c => c.2.2)) }

/- ──────────────── EventQueue (src/queue.ts) ──────────────── -/

/-- `QueueConfig` from src/types.ts (the `enabled` flag is consumed by the
tracker, not by the queue itself). -/
structure QueueConfig where
  maxSize : Option Nat
  flushInterval : Option Int

/-- The `EventQueue` state: the buffer, whether the interval timer is
installed, and the configured threshold.  The flush callback is supplied at
each operation (it is `dispatcher.dispatchBatch` in the tracker); the
batches handed to it are returned explicitly by each operation. -/
structure EventQueue where
  queue : List DispatchedEvent
  timerActive : Bool
  maxSize : Nat
deriving DecidableEq, Repr

/-- The `EventQueue` constructor: `maxSize ?? 10`, `flushInterval ?? 5000`,
and the interval timer is installed only when `flushInterval > 0`. -/
def EventQueue.start (cfg : QueueConfig) : EventQueue :=
  { queue := []
    timerActive := (cfg.flushInterval.getD 5000) > 0
    maxSize := cfg.maxSize.getD 10 }

/-- `EventQueue.flush`: on an empty buffer do nothing; otherwise
`splice(0)` the whole buffer and hand it to the callback.  The returned
option is the batch passed to `onFlush` (`none`: not invoked). -/
def EventQueue.flush (q : EventQueue) : EventQueue × Option (List DispatchedEvent) :=
  if q.queue.isEmpty then (q, none)
  else ({ q with queue := [] }, some q.queue)

/-- `EventQueue.push`: append, then flush if the buffer reached `maxSize`.
The flush starts synchronously inside `push` (its promise is not awaited). -/
def EventQueue.push (q : EventQueue) (e : DispatchedEvent) :
    EventQueue × Option (List DispatchedEvent) :=
  let q' := { q with queue := q.queue ++ [e] }
  if q.maxSize ≤ q'.queue.length then q'.flush else (q', none)

/-- `EventQueue.destroy`: clear the interval timer, then one final flush. -/
def EventQueue.destroy (q : EventQueue) : EventQueue × Option (List DispatchedEvent) :=
  EventQueue.flush { q with timerActive := false }

/-- Repeated `push` calls, collecting every batch handed to the callback,
in invocation order. -/
def EventQueue.pushAll (q : EventQueue) :
    List DispatchedEvent → EventQueue × List (List DispatchedEvent)
  | [] => (q, [])
  | e :: rest =>
    let p := q.push e
    let r := p.1.pushAll rest
    (r.1, p.2.toList ++ r.2)

/- ──────────────── Tracker (src/tracker.ts) ──────────────── -/

/-- The fixed configuration `createTracker` closes over: adapters,
middleware, the constructed consent manager, the queue setting, and the
current global metadata. -/
structure TrackerCfg where
  adapters : List Adapter
  middleware : List Middleware
  consent : ConsentManager
  queueEnabled : Bool
  queueMaxSize : Nat
  globalMetadata : List (String × String)

/-- Everything one `dispatchEvent` call does that is visible outside it:
the event it constructs, the events it pushes into the queue buffer, the
batches released to `dispatchBatch`, the single-event dispatch trace (when
batching is off), the `(error, event?)` pairs handed to `onError`, and
rejections nobody handles (the un-awaited, un-caught `this.flush()` inside
`push`). -/
structure EmitOutcome where
  constructedEvent : DispatchedEvent
  queued : List DispatchedEvent
  flushBatches : List (List DispatchedEvent)
  direct : Option DispatchTrace
  onErrorCalls : List (DestErr × Option DispatchedEvent)
  unhandled : List DestErr

/-- `dispatchEvent` from src/tracker.ts, with the queue buffer threaded
explicitly.  The event record is built first (`Date.now()` is the `now`
argument, metadata a copy of the global metadata).  A consent denial
returns silently.  With batching on, the event goes to `queue.push`; a
size-triggered flush runs `dispatcher.dispatchBatch` whose rejection is
unhandled (the `flush()` promise inside `push` is neither awaited nor
caught).  Without batching, `dispatcher.dispatch(event).catch(err =>
onError(err, event))` routes a rejection to `onError` with the event.
The event record built first is `trackerEvent`: the given key, area, name
and payload, the clock reading at the call (`Date.now()`), and a copy of
the current global metadata. -/
def trackerEvent (cfg : TrackerCfg) (key area eventName : String)
    (payload : List (String × String)) (now : Nat) : DispatchedEvent :=
  { key := key, area := area, eventName := eventName
    payload := payload, timestamp := now, metadata := cfg.globalMetadata }

def dispatchEvent (cfg : TrackerCfg) (buf : List DispatchedEvent)
    (key area eventName : String) (payload : List (String × String))
    (now : Nat) : List DispatchedEvent × EmitOutcome :=
  let event : DispatchedEvent := trackerEvent cfg key area eventName payload now
  if cfg.consent.isAllowed event then
    if cfg.queueEnabled then
      let q : EventQueue := { queue := buf, timerActive := true, maxSize := cfg.queueMaxSize }
      let p := q.push event
      match p.2 with
      | some batch =>
        let t := Dispatcher.dispatchBatch cfg.adapters cfg.middleware batch
        (p.1.queue,
          { constructedEvent := event, queued := [event], flushBatches := [batch]
            direct := none, onErrorCalls := []
            unhandled := match t.result with | .failed d => [d] | _ => [] })
      | none =>
        (p.1.queue,
          { constructedEvent := event, queued := [event], flushBatches := []
            direct := none, onErrorCalls := [], unhandled := [] })
    else
      let t := Dispatcher.dispatch cfg.adapters cfg.middleware event
      (buf,
        { constructedEvent := event, queued := [], flushBatches := []
          direct := some t
          onErrorCalls := match t.result with | .failed d => [(d, some event)] | _ => []
          unhandled := [] })
  else
    (buf,
      { constructedEvent := event, queued := [], flushBatches := []
        direct := none, onErrorCalls := [], unhandled := [] })

/-- A generated catalog entry (`TrackingEvent` in src/types.ts): the stable
key and the payload builder. -/
structure TrackingEventDef where
  key : String
  buildPayload : List (String × String) → List (String × String)

/-- The proxy emit path: `tracker.<area>.<eventName>(params)` calls
`dispatchEvent(eventDef.key, areaProp, eventProp, buildPayload(params))` —
the key comes verbatim from the catalog entry. -/
def emitEvent (cfg : TrackerCfg) (buf : List DispatchedEvent)
    (eventDef : TrackingEventDef) (area eventName : String)
    (params : List (String × String)) (now : Nat) :
    List DispatchedEvent × EmitOutcome :=
  dispatchEvent cfg buf eventDef.key area eventName (eventDef.buildPayload params) now

/- ──────────────── Concrete sample inputs ──────────────── -/

/-- The list of errors the settlement of a dispatch call reports: one for a
rejection, none otherwise. -/
def reportedErrors (t : DispatchTrace) : List DestErr :=
  match t.result with
  | .failed d => [d]
  | _ => []

/-- A sample event. -/
def evA : DispatchedEvent :=
  { key := "auth::login", area := "auth", eventName := "login"
    payload := [], timestamp := 1000, metadata := [] }

/-- A second sample event. -/
def evB : DispatchedEvent :=
  { key := "auth::logout", area := "auth", eventName := "logout"
    payload := [], timestamp := 2000, metadata := [] }

/-- A middleware that forwards the event unchanged. -/
def mwPass : Middleware := fun e => [e]

/-- A middleware that never calls its continuation. -/
def mwDecline : Middleware := fun _ => []

/-- A middleware that calls its continuation twice with the same event. -/
def mwDouble : Middleware := fun e => [e, e]

/-- An adapter whose `send` always fails with "boom". -/
def adFailA : Adapter :=
  { name := "A", send := fun _ => .error "boom", sendBatch := none }

/-- A second failing adapter, failing with "crash". -/
def adFailB : Adapter :=
  { name := "B", send := fun _ => .error "crash", sendBatch := none }

/-- An adapter whose `send` always succeeds. -/
def adGood : Adapter :=
  { name := "ok", send := fun _ => .ok (), sendBatch := none }

/-- A consent manager granting every category. -/
def cmAllow : ConsentManager :=
  { state := fun _ => some true, mapping := fun _ => none
    defaultCategory := "analytics" }

/-- A consent manager denying every category. -/
def cmDeny : ConsentManager :=
  { state := fun _ => some false, mapping := fun _ => none
    defaultCategory := "analytics" }

/-- A tracker with batching on (`maxSize` 1) and a failing adapter. -/
def cfgQueueFail : TrackerCfg :=
  { adapters := [adFailA], middleware := [], consent := cmAllow
    queueEnabled := true, queueMaxSize := 1, globalMetadata := [] }

/-- A tracker with batching off and a failing adapter. -/
def cfgDirectFail : TrackerCfg :=
  { adapters := [adFailA], middleware := [], consent := cmAllow
    queueEnabled := false, queueMaxSize := 10, globalMetadata := [] }

/-- A tracker with batching off and no adapters. -/
def cfgPlain : TrackerCfg :=
  { adapters := [], middleware := [], consent := cmAllow
    queueEnabled := false, queueMaxSize := 10, globalMetadata := [] }

/-- A tracker with batching off whose consent manager denies everything. -/
def cfgDeny : TrackerCfg :=
  { adapters := [adGood], middleware := [], consent := cmDeny
    queueEnabled := false, queueMaxSize := 10, globalMetadata := [] }

/-- A catalog entry whose key is not of the form `area ++ "::" ++ name`. -/
def evDefCustom : TrackingEventDef :=
  { key := "custom_key", buildPayload := fun p => p }

/- ──────────────── Claim theorems ──────────────── -/

/-- C6: `ConsentManager.isAllowed` resolves the event's category by exact
key, then area, then the `area ++ "::*"` wildcard, then the configured
default (which defaults to `"analytics"`), each level taking precedence
over the next, and returns `true` exactly when the state maps the resolved
category to `true` — a category absent from the state denies. -/
theorem consent_resolution (cm : ConsentManager) (e : DispatchedEvent) :
    (cm.isAllowed e = true ↔ cm.state (cm.getCategory e) = some true)
    ∧ (∀ c, cm.mapping e.key = some c → cm.getCategory e = c)
    ∧ (cm.mapping e.key = none →
        ∀ c, cm.mapping e.area = some c → cm.getCategory e = c)
    ∧ (cm.mapping e.key = none → cm.mapping e.area = none →
        ∀ c, cm.mapping (e.area ++ "::*") = some c → cm.getCategory e = c)
    ∧ (cm.mapping e.key = none → cm.mapping e.area = none →
        cm.mapping (e.area ++ "::*") = none →
        cm.getCategory e = cm.defaultCategory)
    ∧ (cm.state (cm.getCategory e) = none → cm.isAllowed e = false)
    ∧ (∀ cfg : ConsentConfig,
        (ConsentManager.ofConfig cfg).defaultCategory =
          cfg.defaultCategory.getD "analytics") := by
  refine ⟨?_, ?_, ?_, ?_, ?_, ?_, ?_⟩
  · unfold ConsentManager.isAllowed
    rcases h : cm.state (cm.getCategory e) with _ | b
    · simp
    · cases b <;> simp
  · intro c h
    unfold ConsentManager.getCategory
    simp [h]
  · intro hk c h
    unfold ConsentManager.getCategory
    simp [hk, h]
  · intro hk ha c h
    unfold ConsentManager.getCategory
    simp [hk, ha, h]
  · intro hk ha hw
    unfold ConsentManager.getCategory
    simp [hk, ha, hw]
  · intro h
    unfold ConsentManager.isAllowed
    simp [h]
  · intro cfg
    rfl

/-- Witness for `consent_resolution`: a mapping with an exact entry for
`"auth::login"` resolves to that entry's category and `isAllowed` follows
the state. -/
theorem consent_resolution_holds :
    ConsentManager.getCategory
      { state := fun c => if c = "marketing" then some true else some false
        mapping := fun p => if p = "auth::login" then some "marketing" else none
        defaultCategory := "analytics" } evA = "marketing"
    ∧ ConsentManager.isAllowed
      { state := fun c => if c = "marketing" then some true else some false
        mapping := fun p => if p = "auth::login" then some "marketing" else none
        defaultCategory := "analytics" } evA = true := by
  constructor
  · exact (consent_resolution _ evA).2.1 "marketing" (by simp [evA])
  · exact ((consent_resolution _ evA).1).mpr
      (by rw [(consent_resolution _ evA).2.1 "marketing" (by simp [evA])]; simp)

/-- C7: an event denied by consent is dropped before it reaches the queue,
the middleware chain or any adapter, and the drop is silent — `onError` is
not invoked. -/
theorem consent_denied_silent (cfg : TrackerCfg) (buf : List DispatchedEvent)
    (key area eventName : String) (payload : List (String × String)) (now : Nat)
    (h : cfg.consent.isAllowed (trackerEvent cfg key area eventName payload now) = false) :
    dispatchEvent cfg buf key area eventName payload now =
      (buf,
        { constructedEvent := trackerEvent cfg key area eventName payload now
          queued := [], flushBatches := [], direct := none
          onErrorCalls := [], unhandled := [] }) := by
  unfold dispatchEvent
  simp [h]

/-- Witness for `consent_denied_silent`: the all-denying tracker drops the
sample event silently. -/
theorem consent_denied_silent_holds :
    dispatchEvent cfgDeny [] "auth::login" "auth" "login" [] 3 =
      ([],
        { constructedEvent := trackerEvent cfgDeny "auth::login" "auth" "login" [] 3
          queued := [], flushBatches := [], direct := none
          onErrorCalls := [], unhandled := [] }) :=
  consent_denied_silent cfgDeny [] "auth::login" "auth" "login" [] 3 (by decide)

/-- C1 counterexample: in the chain `[mwPass, mwDecline]` the second
middleware never calls its continuation, yet `dispatch` does not resolve —
the promise stays pending (`index === 0` fails in the timeout check), so
the claim's "dispatch still resolves ... regardless of ... any later
position" is false.  (No adapter is contacted, as the claim also says.) -/
theorem mw_later_decline_hangs :
    (Dispatcher.dispatch [adGood] [mwPass, mwDecline] evA).result = .pending
    ∧ (Dispatcher.dispatch [adGood] [mwPass, mwDecline] evA).sentTo = []
    ∧ DispatchResult.pending ≠ DispatchResult.ok := by
  refine ⟨by decide, rfl, by decide⟩

/-- C1 amended: a middleware that never calls its continuation causes zero
destination invocations, and `dispatch` resolves — but only when that
middleware is the first in the chain; when the chain hangs (as it does for
a later decliner), `dispatch` never resolves, though still no adapter is
contacted. -/
theorem mw_decline_resolution :
    (∀ (adapters : List Adapter) (mw : Middleware) (rest : List Middleware)
        (e : DispatchedEvent), mw e = [] →
        runMiddleware (mw :: rest) e = .dropped
        ∧ Dispatcher.dispatch adapters (mw :: rest) e =
            { sentTo := [], result := .ok })
    ∧ (∀ (adapters : List Adapter) (chain : List Middleware) (e : DispatchedEvent),
        runMiddleware chain e = .hung →
        Dispatcher.dispatch adapters chain e =
          { sentTo := [], result := .pending }) := by
  constructor
  · intro adapters mw rest e h
    have hrun : runMiddleware (mw :: rest) e = .dropped := by
      unfold runMiddleware
      simp [h]
    exact ⟨hrun, by unfold Dispatcher.dispatch; rw [hrun]⟩
  · intro adapters chain e h
    unfold Dispatcher.dispatch
    rw [h]

/-- Witness for `mw_decline_resolution`: a first-position decliner drops
the sample event with `dispatch` resolved, and the hung two-middleware
chain leaves `dispatch` pending. -/
theorem mw_decline_resolution_holds :
    (runMiddleware [mwDecline] evA = .dropped
      ∧ Dispatcher.dispatch [adGood] [mwDecline] evA =
          { sentTo := [], result := .ok })
    ∧ Dispatcher.dispatch [adGood] [mwPass, mwDecline] evA =
        { sentTo := [], result := .pending } :=
  ⟨mw_decline_resolution.1 [adGood] mwDecline [] evA rfl,
   mw_decline_resolution.2 [adGood] [mwPass, mwDecline] evA (by decide)⟩

/-- C4 counterexample: in `[mwDouble, mwDecline]` the first middleware
invokes its continuation twice; no `ChainMisuseError` exists anywhere in
the code — instead the second invocation acts as the (declining) second
middleware's continuation, so the chain resolves and the event IS
delivered to the adapter, against the claim's "fails that event's
delivery" and "no middleware skipped". -/
theorem double_next_delivers :
    runMiddleware [mwDouble, mwDecline] evA = .delivered evA
    ∧ (Dispatcher.dispatch [adGood] [mwDouble, mwDecline] evA).sentTo =
        [("ok", [evA], Except.ok ())]
    ∧ (Dispatcher.dispatch [adGood] [mwDouble, mwDecline] evA).result = .ok := by
  refine ⟨by decide, rfl, by decide⟩

/-- C4 amended: invoking the continuation again after the chain has
resolved is silently ignored (the `resolved` guard), so the event is never
re-delivered and each adapter receives at most one send per dispatch; but
no `ChainMisuseError` is raised — an extra invocation made before the
chain resolves advances the chain as if the next middleware had proceeded,
and can override a later middleware's decline, delivering the event. -/
theorem next_reinvocation :
    (∀ (chain : List Middleware) (fuel : Nat) (s : MwState) (e : DispatchedEvent),
        s.resolved = true → runNext chain fuel s e = s)
    ∧ (∀ (adapters : List Adapter) (chain : List Middleware) (e f : DispatchedEvent),
        runMiddleware chain e = .delivered f →
        (Dispatcher.dispatch adapters chain e).sentTo.length = adapters.length)
    ∧ runMiddleware [mwDouble, mwDecline] evA = .delivered evA := by
  refine ⟨?_, ?_, by decide⟩
  · intro chain fuel s e h
    cases fuel with
    | zero => rfl
    | succ n => unfold runNext; simp [h]
  · intro adapters chain e f h
    unfold Dispatcher.dispatch
    rw [h]
    simp

/-- Witness for `next_reinvocation`: a resolved state absorbs a further
continuation call, and a delivered dispatch contacts each adapter once. -/
theorem next_reinvocation_holds :
    runNext [] 5 ⟨true, 3, some evA⟩ evA = ⟨true, 3, some evA⟩
    ∧ (Dispatcher.dispatch [adGood] [] evA).sentTo.length = 1 :=
  ⟨next_reinvocation.1 [] 5 ⟨true, 3, some evA⟩ evA rfl,
   next_reinvocation.2.1 [adGood] [] evA evA rfl⟩

/-- C2 counterexample: with two failing adapters, the rejection of
`dispatch` carries only the first adapter's wrapped error — the second
failing adapter's error is absent from what `dispatch` reports, against
the claim's "contains every failing adapter's error". -/
theorem dispatch_second_error_dropped :
    adFailB.send evA = Except.error "crash"
    ∧ reportedErrors (Dispatcher.dispatch [adFailA, adFailB] [] evA) =
        [wrapErr "A" "boom"]
    ∧ wrapErr "B" "crash" ∉
        reportedErrors (Dispatcher.dispatch [adFailA, adFailB] [] evA) := by
  refine ⟨rfl, rfl, by decide⟩

/-- C2 amended: `dispatch` invokes every adapter's `send` on the final
event; it fulfills when none fail and otherwise rejects with a single
error — the first failing adapter's wrapped error (first in registration
order, for immediately-settling sends) — the other failing adapters'
errors are not aggregated (`Promise.all` keeps only its first rejection). -/
theorem dispatch_error_reporting (adapters : List Adapter)
    (chain : List Middleware) (e f : DispatchedEvent)
    (h : runMiddleware chain e = .delivered f) :
    (Dispatcher.dispatch adapters chain e).sentTo =
      adapters.map (fun a => (a.name, [f], sendWrapped a f))
    ∧ (Dispatcher.dispatch adapters chain e).result =
        (match (errorsOf (adapters.map (fun a => sendWrapped a f))).head? with
          | some d => .failed d
          | none => .ok) := by
  unfold Dispatcher.dispatch
  rw [h]
  refine ⟨rfl, ?_⟩
  simp only [allResult, List.map_map]
  rfl

/-- Witness for `dispatch_error_reporting`: the two-failing-adapter
dispatch rejects with exactly adapter A's wrapped error. -/
theorem dispatch_error_reporting_holds :
    (Dispatcher.dispatch [adFailA, adFailB] [] evA).result =
      .failed (wrapErr "A" "boom") := by
  rw [(dispatch_error_reporting [adFailA, adFailB] [] evA evA rfl).2]
  rfl

/-- C5: one adapter's `send` throwing does not prevent any other adapter's
`send` from being invoked and completing successfully in the same
`dispatch` call: every adapter appears in the call trace with its own
result, and a succeeding adapter's entry is a success whatever the other
adapters did. -/
theorem dispatch_isolation (adapters : List Adapter) (chain : List Middleware)
    (e f : DispatchedEvent) (h : runMiddleware chain e = .delivered f) :
    (∀ a ∈ adapters,
        (a.name, [f], sendWrapped a f) ∈ (Dispatcher.dispatch adapters chain e).sentTo)
    ∧ (∀ a ∈ adapters, a.send f = .ok () →
        (a.name, [f], Except.ok ()) ∈ (Dispatcher.dispatch adapters chain e).sentTo) := by
  unfold Dispatcher.dispatch
  rw [h]
  constructor
  · intro a ha
    exact List.mem_map_of_mem _ ha
  · intro a ha hok
    have : sendWrapped a f = Except.ok () := by
      unfold sendWrapped
      rw [hok]
    rw [← this]
    exact List.mem_map_of_mem _ ha

/-- Witness for `dispatch_isolation`: with a failing adapter first, the
good adapter's send is still invoked and recorded as a success. -/
theorem dispatch_isolation_holds :
    ("ok", [evA], Except.ok ()) ∈
      (Dispatcher.dispatch [adFailA, adGood] [] evA).sentTo :=
  (dispatch_isolation [adFailA, adGood] [] evA evA rfl).2 adGood
    (by simp) rfl

/-- Helper: a push that leaves the buffer strictly below `maxSize` only
appends; the flush callback is not invoked. -/
theorem EventQueue.push_below (q : EventQueue) (e : DispatchedEvent)
    (h : q.queue.length + 1 < q.maxSize) :
    q.push e = ({ q with queue := q.queue ++ [e] }, none) := by
  unfold EventQueue.push
  have hc : ¬ q.maxSize ≤ (q.queue ++ [e]).length := by
    simp only [List.length_append, List.length_cons, List.length_nil]
    omega
  simp only [hc, if_false]

/-- Helper: a push that fills the buffer to `maxSize` flushes inside the
push call: the whole buffer, new event last, goes to the callback and the
buffer is left empty. -/
theorem EventQueue.push_hit (q : EventQueue) (e : DispatchedEvent)
    (h : q.maxSize ≤ q.queue.length + 1) :
    q.push e = ({ q with queue := [] }, some (q.queue ++ [e])) := by
  unfold EventQueue.push EventQueue.flush
  have hc : q.maxSize ≤ (q.queue ++ [e]).length := by
    simp only [List.length_append, List.length_cons, List.length_nil]
    omega
  have hne : ¬ (q.queue ++ [e]).isEmpty = true := by simp
  simp only [hc, if_true, hne, if_false, if_pos, Bool.false_eq_true]

/-- Helper: while the buffer stays strictly below `maxSize`, pushes only
append and the flush callback is never invoked. -/
theorem EventQueue.pushAll_below (es : List DispatchedEvent) :
    ∀ q : EventQueue, q.queue.length + es.length < q.maxSize →
      q.pushAll es = ({ q with queue := q.queue ++ es }, []) := by
  induction es with
  | nil => intro q _; simp [EventQueue.pushAll]
  | cons e rest ih =>
    intro q h
    simp only [List.length_cons] at h
    have hpush := q.push_below e (by omega)
    have hr := ih { q with queue := q.queue ++ [e] }
      (by simp only [List.length_append, List.length_cons, List.length_nil]; omega)
    unfold EventQueue.pushAll
    rw [hpush]
    simp only [hr, Option.toList_none, List.nil_append, List.append_assoc,
      List.singleton_append]

/-- Helper: pushing exactly enough events to fill the buffer to `maxSize`
invokes the flush callback exactly once, with the whole buffer contents in
push order, and leaves the buffer empty. -/
theorem EventQueue.pushAll_hits (es : List DispatchedEvent) :
    ∀ q : EventQueue, q.queue.length + es.length = q.maxSize → es ≠ [] →
      q.pushAll es = ({ q with queue := [] }, [q.queue ++ es]) := by
  induction es with
  | nil => intro q _ hne; exact absurd rfl hne
  | cons e rest ih =>
    intro q h _
    simp only [List.length_cons] at h
    cases rest with
    | nil =>
      have hpush := q.push_hit e (by simp only [List.length_nil] at h; omega)
      unfold EventQueue.pushAll
      rw [hpush]
      simp [EventQueue.pushAll]
    | cons e2 rest2 =>
      have hpush := q.push_below e
        (by simp only [List.length_cons] at h; omega)
      have hr := ih { q with queue := q.queue ++ [e] }
        (by simp only [List.length_append, List.length_cons, List.length_nil]
            simp only [List.length_cons] at h
            omega)
        (by simp)
      unfold EventQueue.pushAll
      rw [hpush]
      simp only [hr, Option.toList_none, List.nil_append, List.append_assoc,
        List.singleton_append]

/-- Helper: the queue state left by `destroy` — buffer drained, timer off,
same threshold. -/
theorem EventQueue.destroy_fst (q : EventQueue) :
    (q.destroy).1 = { queue := [], timerActive := false, maxSize := q.maxSize } := by
  unfold EventQueue.destroy EventQueue.flush
  by_cases h : q.queue.isEmpty
  · have : q.queue = [] := List.isEmpty_iff.mp h
    simp [h, this]
  · simp [h]

/-- C8: with the interval timer disabled (`flushInterval <= 0`), pushing
`maxSize` events into a fresh queue fires the release callback exactly
once, with exactly those events in push order; no callback fires before
the threshold, and the crossing `push` itself performs the flush
(synchronously, before it returns). -/
theorem queue_size_trigger (cfg : QueueConfig) (es : List DispatchedEvent)
    (e : DispatchedEvent) (hint : cfg.flushInterval.getD 5000 ≤ 0)
    (hsz : (EventQueue.start cfg).maxSize = es.length + 1) :
    (EventQueue.start cfg).timerActive = false
    ∧ (EventQueue.start cfg).pushAll es = ({ EventQueue.start cfg with queue := es }, [])
    ∧ ({ EventQueue.start cfg with queue := es } : EventQueue).push e =
        ({ EventQueue.start cfg with queue := [] }, some (es ++ [e]))
    ∧ (EventQueue.start cfg).pushAll (es ++ [e]) =
        ({ EventQueue.start cfg with queue := [] }, [es ++ [e]]) := by
  have hq : (EventQueue.start cfg).queue = [] := rfl
  refine ⟨?_, ?_, ?_, ?_⟩
  · unfold EventQueue.start
    simp only [decide_eq_false_iff_not]
    omega
  · exact EventQueue.pushAll_below es _ (by rw [hq, hsz]; simp)
  · have := EventQueue.push_hit { EventQueue.start cfg with queue := es } e
      (by simpa using Nat.le_of_eq hsz)
    simpa using this
  · have := EventQueue.pushAll_hits (es ++ [e]) (EventQueue.start cfg)
      (by rw [hq, hsz]; simp) (by simp)
    rw [hq] at this
    simpa using this

/-- Witness for `queue_size_trigger`: `maxSize = 2`, timer disabled; push
A then B fires the callback once with `[A, B]`. -/
theorem queue_size_trigger_holds :
    (EventQueue.start ⟨some 2, some 0⟩).pushAll [evA, evB] =
      ({ EventQueue.start ⟨some 2, some 0⟩ with queue := [] }, [[evA, evB]]) := by
  have h := (queue_size_trigger ⟨some 2, some 0⟩ [evA] evB (by decide)
    (by decide)).2.2.2
  simpa using h

/-- C10: `destroy` only stops the interval timer and drains the buffer; it
does not disable the queue — a later `push` still appends to the buffer,
and filling the buffer to `maxSize` still fires the release callback with
the buffered events. -/
theorem destroy_not_disabling (q : EventQueue) (es : List DispatchedEvent)
    (e : DispatchedEvent) :
    (q.destroy).1.timerActive = false
    ∧ (q.destroy).1.queue = []
    ∧ (q.queue ≠ [] → (q.destroy).2 = some q.queue)
    ∧ (1 < q.maxSize →
        (q.destroy).1.push e = ({ (q.destroy).1 with queue := [e] }, none))
    ∧ ((q.destroy).1.maxSize = es.length → es ≠ [] →
        (q.destroy).1.pushAll es = ({ (q.destroy).1 with queue := [] }, [es])) := by
  have hd := EventQueue.destroy_fst q
  refine ⟨by rw [hd], by rw [hd], ?_, ?_, ?_⟩
  · intro hne
    unfold EventQueue.destroy EventQueue.flush
    have : ¬ q.queue.isEmpty = true := by
      simpa [List.isEmpty_iff] using hne
    simp [this]
  · intro hmax
    rw [hd]
    have := EventQueue.push_below
      { queue := [], timerActive := false, maxSize := q.maxSize } e
      (by simpa using hmax)
    simpa using this
  · intro hsz hne
    rw [hd] at hsz ⊢
    have := EventQueue.pushAll_hits es
      { queue := [], timerActive := false, maxSize := q.maxSize }
      (by simpa using hsz.symm) hne
    simpa using this

/-- Witness for `destroy_not_disabling`: destroying a queue holding one
event drains it, and two subsequent pushes (threshold 2) fire the
callback with exactly those two events. -/
theorem destroy_not_disabling_holds :
    ((⟨[evA], true, 2⟩ : EventQueue).destroy).2 = some [evA]
    ∧ ((⟨[evA], true, 2⟩ : EventQueue).destroy).1.pushAll [evB, evA] =
        ({ ((⟨[evA], true, 2⟩ : EventQueue).destroy).1 with queue := [] },
          [[evB, evA]]) :=
  ⟨(destroy_not_disabling ⟨[evA], true, 2⟩ [evB, evA] evB).2.2.1 (by decide),
   (destroy_not_disabling ⟨[evA], true, 2⟩ [evB, evA] evB).2.2.2.2
     (by decide) (by decide)⟩

/-- C3 counterexample: with batching enabled (`maxSize` 1) and a failing
adapter, the size-triggered flush inside `push` runs `dispatchBatch`,
whose rejection is NOT delivered to `onError` — the `flush()` promise
inside `push` is neither awaited nor caught, so the error escapes as an
unhandled rejection, against the claim's "is also delivered to onError". -/
theorem queue_error_escapes :
    (dispatchEvent cfgQueueFail [] "k" "a" "n" [] 5).2.flushBatches =
      [[trackerEvent cfgQueueFail "k" "a" "n" [] 5]]
    ∧ (dispatchEvent cfgQueueFail [] "k" "a" "n" [] 5).2.onErrorCalls = []
    ∧ (dispatchEvent cfgQueueFail [] "k" "a" "n" [] 5).2.unhandled =
        [wrapBatchErr "A" "boom"] := by
  refine ⟨rfl, rfl, rfl⟩

/-- C3 amended: on the direct (non-batched) path a destination failure is
delivered to `onError` together with the event and nothing escapes; on the
batched path a rejection from `dispatchBatch` raised during a
size-triggered (or timer-driven) flush is NOT delivered to `onError` — it
escapes as an unhandled promise rejection. -/
theorem error_routing :
    (∀ (cfg : TrackerCfg) (buf : List DispatchedEvent)
        (key area eventName : String) (payload : List (String × String))
        (now : Nat) (d : DestErr),
        cfg.queueEnabled = false →
        cfg.consent.isAllowed (trackerEvent cfg key area eventName payload now) = true →
        (Dispatcher.dispatch cfg.adapters cfg.middleware
            (trackerEvent cfg key area eventName payload now)).result = .failed d →
        (dispatchEvent cfg buf key area eventName payload now).2.onErrorCalls =
          [(d, some (trackerEvent cfg key area eventName payload now))]
        ∧ (dispatchEvent cfg buf key area eventName payload now).2.unhandled = [])
    ∧ (∀ (cfg : TrackerCfg) (buf : List DispatchedEvent)
        (key area eventName : String) (payload : List (String × String))
        (now : Nat) (d : DestErr),
        cfg.queueEnabled = true →
        cfg.consent.isAllowed (trackerEvent cfg key area eventName payload now) = true →
        cfg.queueMaxSize ≤ buf.length + 1 →
        (Dispatcher.dispatchBatch cfg.adapters cfg.middleware
            (buf ++ [trackerEvent cfg key area eventName payload now])).result =
          .failed d →
        (dispatchEvent cfg buf key area eventName payload now).2.onErrorCalls = []
        ∧ (dispatchEvent cfg buf key area eventName payload now).2.unhandled = [d]) := by
  constructor
  · intro cfg buf key area eventName payload now d hq hallow hfail
    simp only [dispatchEvent, hallow, if_true, hq, Bool.false_eq_true, if_false,
      hfail]
    simp
  · intro cfg buf key area eventName payload now d hq hallow hthr hfail
    have hpush := EventQueue.push_hit
      { queue := buf, timerActive := true, maxSize := cfg.queueMaxSize }
      (trackerEvent cfg key area eventName payload now) (by simpa using hthr)
    simp only [dispatchEvent, hallow, if_true, hq, hpush, hfail]
    simp

/-- Witness for `error_routing`: the direct-path failure reaches `onError`
with the event, and the batched-path failure is an unhandled rejection. -/
theorem error_routing_holds :
    ((dispatchEvent cfgDirectFail [] "k" "a" "n" [] 5).2.onErrorCalls =
        [(wrapErr "A" "boom", some (trackerEvent cfgDirectFail "k" "a" "n" [] 5))]
      ∧ (dispatchEvent cfgDirectFail [] "k" "a" "n" [] 5).2.unhandled = [])
    ∧ ((dispatchEvent cfgQueueFail [] "q" "a" "n" [] 5).2.onErrorCalls = []
      ∧ (dispatchEvent cfgQueueFail [] "q" "a" "n" [] 5).2.unhandled =
          [wrapBatchErr "A" "boom"]) :=
  ⟨error_routing.1 cfgDirectFail [] "k" "a" "n" [] 5 (wrapErr "A" "boom")
      rfl rfl rfl,
   error_routing.2 cfgQueueFail [] "q" "a" "n" [] 5 (wrapBatchErr "A" "boom")
      rfl rfl (by decide) rfl⟩

/-- Helper: the shape of one `dispatchEvent` call, whatever branch it
takes: the constructed event is `trackerEvent`, only that very event is
ever queued, a released batch is exactly the prior buffer with that event
appended, and the direct trace (when present) is the dispatch of that very
event. -/
theorem dispatchEvent_shape (cfg : TrackerCfg) (buf : List DispatchedEvent)
    (key area eventName : String) (payload : List (String × String)) (now : Nat) :
    ((dispatchEvent cfg buf key area eventName payload now).2.constructedEvent
        = trackerEvent cfg key area eventName payload now)
    ∧ (∀ x ∈ (dispatchEvent cfg buf key area eventName payload now).2.queued,
        x = trackerEvent cfg key area eventName payload now)
    ∧ (∀ b ∈ (dispatchEvent cfg buf key area eventName payload now).2.flushBatches,
        b = buf ++ [trackerEvent cfg key area eventName payload now])
    ∧ (∀ t, (dispatchEvent cfg buf key area eventName payload now).2.direct = some t →
        t = Dispatcher.dispatch cfg.adapters cfg.middleware
              (trackerEvent cfg key area eventName payload now)) := by
  by_cases hA : cfg.consent.isAllowed (trackerEvent cfg key area eventName payload now) = true
  · by_cases hQ : cfg.queueEnabled = true
    · by_cases hT : cfg.queueMaxSize ≤ buf.length + 1
      · have hpush := EventQueue.push_hit
          { queue := buf, timerActive := true, maxSize := cfg.queueMaxSize }
          (trackerEvent cfg key area eventName payload now) (by simpa using hT)
        simp [dispatchEvent, hA, hQ, hpush]
      · have hpush := EventQueue.push_below
          { queue := buf, timerActive := true, maxSize := cfg.queueMaxSize }
          (trackerEvent cfg key area eventName payload now) (by simp; omega)
        simp [dispatchEvent, hA, hQ, hpush]
    · simp only [Bool.not_eq_true] at hQ
      simp [dispatchEvent, hA, hQ]
  · simp only [Bool.not_eq_true] at hA
    simp [dispatchEvent, hA]

/-- C9 counterexample: the emit path takes the event key verbatim from the
catalog entry; a catalog entry whose key is not `area ++ "::" ++ name`
produces an event violating the claimed invariant — the tracker does not
enforce it. -/
theorem catalog_key_verbatim :
    ((emitEvent cfgPlain [] evDefCustom "auth" "login" [] 7).2.constructedEvent).key
      = "custom_key"
    ∧ ¬ ((emitEvent cfgPlain [] evDefCustom "auth" "login" [] 7).2.constructedEvent).key
        = ((emitEvent cfgPlain [] evDefCustom "auth" "login" [] 7).2.constructedEvent).area
          ++ "::"
          ++ ((emitEvent cfgPlain [] evDefCustom "auth" "login" [] 7).2.constructedEvent).eventName := by
  refine ⟨rfl, by decide⟩

/-- C9 amended: the event constructed by the emit path carries the catalog
entry's key verbatim, so `key == area ++ "::" ++ name` holds exactly when
the catalog entry's key has that form (the generated catalog guarantees
it; the tracker does not enforce it); the timestamp is set exactly once at
creation (to the clock reading of the emit call) and no downstream
pipeline step — consent check, queue, or dispatch — recomputes it: the
queue stores and releases the very event object, and with an empty
middleware chain every adapter receives that very event. -/
theorem event_construction (cfg : TrackerCfg) (buf : List DispatchedEvent)
    (dfn : TrackingEventDef) (area eventName : String)
    (params : List (String × String)) (now : Nat) :
    ((emitEvent cfg buf dfn area eventName params now).2.constructedEvent
        = { key := dfn.key, area := area, eventName := eventName
            payload := dfn.buildPayload params, timestamp := now
            metadata := cfg.globalMetadata })
    ∧ (dfn.key = area ++ "::" ++ eventName →
        (emitEvent cfg buf dfn area eventName params now).2.constructedEvent.key
          = (emitEvent cfg buf dfn area eventName params now).2.constructedEvent.area
            ++ "::"
            ++ (emitEvent cfg buf dfn area eventName params now).2.constructedEvent.eventName)
    ∧ ((emitEvent cfg buf dfn area eventName params now).2.constructedEvent.timestamp = now)
    ∧ (∀ x ∈ (emitEvent cfg buf dfn area eventName params now).2.queued,
        x = (emitEvent cfg buf dfn area eventName params now).2.constructedEvent)
    ∧ (∀ b ∈ (emitEvent cfg buf dfn area eventName params now).2.flushBatches,
        b = buf ++ [(emitEvent cfg buf dfn area eventName params now).2.constructedEvent])
    ∧ (cfg.middleware = [] →
        ∀ t, (emitEvent cfg buf dfn area eventName params now).2.direct = some t →
        t.sentTo = cfg.adapters.map (fun a =>
          (a.name,
            [(emitEvent cfg buf dfn area eventName params now).2.constructedEvent],
            sendWrapped a
              (emitEvent cfg buf dfn area eventName params now).2.constructedEvent))) := by
  have hs := dispatchEvent_shape cfg buf dfn.key area eventName
    (dfn.buildPayload params) now
  have hev : (emitEvent cfg buf dfn area eventName params now).2.constructedEvent
      = trackerEvent cfg dfn.key area eventName (dfn.buildPayload params) now := hs.1
  refine ⟨by rw [hev]; rfl, ?_, by rw [hev]; rfl, ?_, ?_, ?_⟩
  · intro hk
    rw [hev]
    simpa [trackerEvent] using hk
  · intro x hx
    rw [hev]
    exact hs.2.1 x hx
  · intro b hb
    rw [hev]
    exact hs.2.2.1 b hb
  · intro hmw t ht
    have := hs.2.2.2 t ht
    rw [this, hev, hmw]
    rfl

/-- Witness for `event_construction`: a well-formed catalog key yields the
invariant, the sample timestamp, and the exact event in the queue. -/
theorem event_construction_holds :
    ((emitEvent cfgPlain [] ⟨"auth::login", fun p => p⟩ "auth" "login" [] 7).2.constructedEvent.key
        = (emitEvent cfgPlain [] ⟨"auth::login", fun p => p⟩ "auth" "login" [] 7).2.constructedEvent.area
          ++ "::"
          ++ (emitEvent cfgPlain [] ⟨"auth::login", fun p => p⟩ "auth" "login" [] 7).2.constructedEvent.eventName)
    ∧ (emitEvent cfgPlain [] ⟨"auth::login", fun p => p⟩ "auth" "login" [] 7).2.constructedEvent.timestamp = 7 :=
  ⟨(event_construction cfgPlain [] ⟨"auth::login", fun p => p⟩ "auth" "login" [] 7).2.1 rfl,
   (event_construction cfgPlain [] ⟨"auth::login", fun p => p⟩ "auth" "login" [] 7).2.2.1⟩

end OpenTP
